import Mathlib

/-!
Verification of the core cost model of the ERP-cameras repository
(`src/core/models.py` together with the profit annotation of
`src/core/admin.py`).

Money values in the source are Python `decimal.Decimal` values; the default
decimal context has precision 28 significant digits and rounding
ROUND_HALF_EVEN.  We model each decimal value by its rational value, each
arithmetic operation by the exact rational operation followed by rounding to
28 significant digits half-even, and persistence into a Django
`DecimalField(decimal_places=2)` column by quantisation to two fractional
digits half-even (Django quantises decimals on write, with the default
context rounding).  The built-in `round` applied to a `Decimal` also rounds
half-even, to an integer.
-/

namespace ERP

/-- Rounding of a rational to the nearest integer, ties to even: the
ROUND_HALF_EVEN rule of the Python `decimal` module, which is also what the
built-in `round` does on a `Decimal`. -/
def rhe (y : ℚ) : ℤ :=
  if y - ⌊y⌋ < 1/2 then ⌊y⌋
  else if 1/2 < y - ⌊y⌋ then ⌊y⌋ + 1
  else if ⌊y⌋ % 2 = 0 then ⌊y⌋ else ⌊y⌋ + 1

/-- Rounding of `x` to an integral multiple of `10 ^ e`, ties to even:
`Decimal.quantize` at exponent `e` under ROUND_HALF_EVEN. -/
def quantAt (e : ℤ) (x : ℚ) : ℚ := (rhe (x * 10 ^ (-e)) : ℚ) * 10 ^ e

/-- Fuel-based count of the decimal digits of `n`, so that it reduces inside
the kernel. -/
def digits10Aux : ℕ → ℕ → ℕ
  | 0, _ => 1
  | fuel+1, n => if n < 10 then 1 else digits10Aux fuel (n / 10) + 1

/-- Number of decimal digits of `n` (`digits10 0 = 1`). -/
def digits10 (n : ℕ) : ℕ := digits10Aux n n

/-- Decimal exponent of `x`: for `x ≠ 0` the largest `e` with
`10 ^ e ≤ |x|`. -/
def decExp (x : ℚ) : ℤ :=
  if (10:ℚ) ^ ((digits10 x.num.natAbs : ℤ) - (digits10 x.den : ℤ)) ≤ |x|
  then (digits10 x.num.natAbs : ℤ) - (digits10 x.den : ℤ)
  else (digits10 x.num.natAbs : ℤ) - (digits10 x.den : ℤ) - 1

/-- Rounding of `x` to `p` significant decimal digits, ties to even: the
rounding a `decimal` context with precision `p` applies to every arithmetic
result. -/
def roundPrec (p : ℕ) (x : ℚ) : ℚ :=
  if x = 0 then 0 else quantAt (decExp x + 1 - p) x

/-- Decimal multiplication under the default Python context (precision 28,
ROUND_HALF_EVEN). -/
def mulD (x y : ℚ) : ℚ := roundPrec 28 (x * y)

/-- Decimal division under the default Python context (precision 28,
ROUND_HALF_EVEN). -/
def divD (x y : ℚ) : ℚ := roundPrec 28 (x / y)

/-- Quantisation to two fractional digits: the value Django stores for a
`DecimalField` declared with `decimal_places=2`. -/
def quant2 (x : ℚ) : ℚ := quantAt (-2) x

/-! ### The data model

`Pedido` and `Articulo` carry the fields of `src/core/models.py` that the
cost computations read or write.  A Django column declared with `null=True`
is modelled as an `Option`; a column with a default and no `null=True` is a
plain value.  `precio_venta` is modelled as an `Option` because the property
reading it guards on `is not None`. -/

structure Pedido where
  gastos_aduana : ℚ := 0
  coste_envio_agrupado : ℚ := 0
  tasa_cambio_eur_jpy : ℚ
  tasa_iva : ℚ := 21/100
deriving DecidableEq

structure Articulo where
  coste_euro : ℚ
  coste_envio_individual : Option ℚ := some 0
  coste_yen : Option ℤ := none
  iva : Option ℚ := none
  aduana_imputada : ℚ := 0
  precio_venta : Option ℚ := some 0
  venta_objetiva : ℚ := 0
  coste_envio_nacional : ℚ := 0
deriving DecidableEq

/-- The two legal values of the `campo_articulo_destino` string of
`Pedido._distribuir_coste`: the only call sites pass the names of the
allocated-customs and the individual-shipping column. -/
inductive Campo where
  | aduana_imputada
  | coste_envio_individual
deriving DecidableEq

/-- Dynamic field write `setattr(articulo, campo_articulo_destino, v)`
followed by persistence of that column (`bulk_update`): a
`DecimalField(decimal_places=2)` column stores the value quantised to two
fractional digits. -/
def setCampo (a : Articulo) (c : Campo) (v : ℚ) : Articulo :=
  match c with
  | Campo.aduana_imputada => { a with aduana_imputada := quant2 v }
  | Campo.coste_envio_individual => { a with coste_envio_individual := some (quant2 v) }

/-- Read back the target column, a null individual-shipping read as 0. -/
def getCampo (a : Articulo) (c : Campo) : ℚ :=
  match c with
  | Campo.aduana_imputada => a.aduana_imputada
  | Campo.coste_envio_individual => a.coste_envio_individual.getD 0

/-- Embedding of `Pedido._distribuir_coste` (models.py lines 25-51).  The
related set `self.articulos.all()` is passed as the list `arts`; the
returned Bool is the Python return value.  The guards mirror the source:
`coste_total_pedido > 0 and articulos.exists()`, then
`total_coste_base > 0` where `total_coste_base` is the SQL SUM of
`coste_euro` (never null on a nonempty set, so the `or Decimal 0` fallback
is folded away).  Each share is
`coste_total_pedido * (articulo.coste_euro / total_coste_base)` in decimal
context arithmetic, written into the target column by `bulk_update`
(quantised to two fractional digits by `setCampo`).  The final
`if articulos_a_actualizar` test is always true on this branch because
`arts` is nonempty. -/
def Pedido._distribuir_coste (arts : List Articulo) (coste_total_pedido : ℚ)
    (campo : Campo) : List Articulo × Bool :=
  if coste_total_pedido > 0 ∧ arts ≠ [] then
    let total_coste_base := (arts.map Articulo.coste_euro).sum
    if total_coste_base > 0 then
      (arts.map fun a =>
        setCampo a campo (mulD coste_total_pedido (divD a.coste_euro total_coste_base)),
       true)
    else (arts, false)
  else (arts, false)

/-- Embedding of `Pedido.distribuir_gastos_aduana`. -/
def Pedido.distribuir_gastos_aduana (p : Pedido) (arts : List Articulo) :
    List Articulo × Bool :=
  Pedido._distribuir_coste arts p.gastos_aduana Campo.aduana_imputada

/-- Embedding of `Pedido.distribuir_coste_envio`. -/
def Pedido.distribuir_coste_envio (p : Pedido) (arts : List Articulo) :
    List Articulo × Bool :=
  Pedido._distribuir_coste arts p.coste_envio_agrupado Campo.coste_envio_individual

/-- Step 1 of `Articulo.save` (models.py lines 115-117), as persisted.  The
Python truthiness guard `if self.pedido.tasa_iva and self.coste_euro` holds
exactly when both decimals are nonzero.  `self.iva = self.coste_euro *
self.pedido.tasa_iva` is context multiplication, stored into a
`DecimalField(decimal_places=2)` column, hence quantised half-even on
write. -/
def saveIva (ped : Pedido) (a : Articulo) : Articulo :=
  if ped.tasa_iva ≠ 0 ∧ a.coste_euro ≠ 0 then
    { a with iva := some (quant2 (mulD a.coste_euro ped.tasa_iva)) }
  else a

/-- Step 2 of `Articulo.save` (models.py lines 119-121): `self.coste_yen =
round(self.coste_euro * self.pedido.tasa_cambio_eur_jpy)`, the built-in
round of a Decimal, which rounds half-even to an integer; the result is
stored in an IntegerField column unchanged. -/
def saveYen (ped : Pedido) (a : Articulo) : Articulo :=
  if ped.tasa_cambio_eur_jpy ≠ 0 ∧ a.coste_euro ≠ 0 then
    { a with coste_yen := some (rhe (mulD a.coste_euro ped.tasa_cambio_eur_jpy)) }
  else a

/-- Embedding of `Articulo.save` (models.py lines 114-124): the two
sequential computations above, then the actual write (`super().save()`). -/
def Articulo.save (ped : Pedido) (a : Articulo) : Articulo := saveYen ped (saveIva ped a)

/-- Embedding of the property `Articulo.coste_adquisicion_total`
(models.py lines 126-129).  The source coalesces only the VAT
(`iva = self.iva or Decimal 0`); adding a null `coste_envio_individual`
raises a TypeError, modelled as `none`. -/
def Articulo.coste_adquisicion_total (a : Articulo) : Option ℚ :=
  match a.coste_envio_individual with
  | none => none
  | some envio =>
      some (a.coste_euro + a.iva.getD 0 + envio + a.aduana_imputada + a.coste_envio_nacional)

/-- Embedding of the property `Articulo.beneficio` (models.py lines
131-136).  `none` models the TypeError escaping from
`coste_adquisicion_total`; `some none` models the Python `return None`
taken when `precio_venta` is null. -/
def Articulo.beneficio (a : Articulo) : Option (Option ℚ) :=
  match a.precio_venta with
  | some p =>
      match Articulo.coste_adquisicion_total a with
      | some coste_total => some (some (p - coste_total - a.coste_envio_nacional))
      | none => none
  | none => some none

/-- Embedding of the `_coste_total` annotation of
`ArticuloAdmin.get_queryset` (admin.py lines 78-94): every summand is
wrapped in `Coalesce(..., 0)`, so nulls read as 0 (on the model only `iva`
and `coste_envio_individual` are nullable). -/
def adminCosteTotal (a : Articulo) : ℚ :=
  a.coste_euro + a.iva.getD 0 + a.coste_envio_individual.getD 0 +
    a.aduana_imputada + a.coste_envio_nacional

/-- Embedding of the `_beneficio` annotation of
`ArticuloAdmin.get_queryset`: `Case(When(precio_venta__isnull=False, then=
Coalesce(precio_venta, 0) - coste_total_expr), default=None)`. -/
def adminBeneficio (a : Articulo) : Option ℚ :=
  match a.precio_venta with
  | some p => some (p - adminCosteTotal a)
  | none => none

/-- Concrete item used by several witnesses: base cost 10, individual
shipping 2, VAT 5, allocated customs 3, sale price 100, national
shipping 4. -/
def artEjemplo : Articulo :=
  { coste_euro := 10, coste_envio_individual := some 2, iva := some 5,
    aduana_imputada := 3, precio_venta := some 100, coste_envio_nacional := 4 }

/-! ### Elementary facts about the rounding model -/

theorem rhe_sub_abs_le (y : ℚ) : |(rhe y : ℚ) - y| ≤ 1/2 := by
  have h0 : (⌊y⌋ : ℚ) ≤ y := Int.floor_le y
  have h1 : y < ⌊y⌋ + 1 := Int.lt_floor_add_one y
  rw [abs_le]
  unfold rhe
  split
  · rename_i h
    constructor <;> linarith
  · rename_i h
    push_neg at h
    split
    · rename_i h2
      constructor <;> push_cast <;> linarith
    · rename_i h2
      push_neg at h2
      split <;> (constructor <;> push_cast <;> linarith)

theorem rhe_intCast (n : ℤ) : rhe (n : ℚ) = n := by
  unfold rhe
  rw [Int.floor_intCast]
  norm_num

theorem quantAt_sub_abs_le (e : ℤ) (x : ℚ) : |quantAt e x - x| ≤ 10 ^ e / 2 := by
  have hp : (0:ℚ) < 10 ^ e := by positivity
  have hx : x = x * 10 ^ (-e) * 10 ^ e := by
    rw [mul_assoc, ← zpow_add₀ (by norm_num : (10:ℚ) ≠ 0)]
    simp
  have key : quantAt e x - x = ((rhe (x * 10 ^ (-e)) : ℚ) - x * 10 ^ (-e)) * 10 ^ e := by
    rw [quantAt, sub_mul]
    congr 1
  rw [key, abs_mul, abs_of_pos hp]
  have h := rhe_sub_abs_le (x * 10 ^ (-e))
  have h2 := mul_le_mul_of_nonneg_right h (le_of_lt hp)
  linarith

theorem quantAt_eq_self (e : ℤ) (x : ℚ) (h : ∃ n : ℤ, x * 10 ^ (-e) = (n:ℚ)) :
    quantAt e x = x := by
  obtain ⟨n, hn⟩ := h
  have hx : x = x * 10 ^ (-e) * 10 ^ e := by
    rw [mul_assoc, ← zpow_add₀ (by norm_num : (10:ℚ) ≠ 0)]
    simp
  rw [quantAt, hn, rhe_intCast, ← hn]
  exact hx.symm

theorem digits10Aux_pos (fuel n : ℕ) : 1 ≤ digits10Aux fuel n := by
  cases fuel with
  | zero => simp [digits10Aux]
  | succ fuel =>
      unfold digits10Aux
      split
      · exact le_refl 1
      · omega

theorem digits10Aux_bounds : ∀ fuel n : ℕ, n ≤ fuel → n ≠ 0 →
    10 ^ (digits10Aux fuel n - 1) ≤ n ∧ n < 10 ^ digits10Aux fuel n := by
  intro fuel
  induction fuel with
  | zero => intro n hn h0; omega
  | succ fuel ih =>
      intro n hn h0
      unfold digits10Aux
      split
      · rename_i hlt
        refine ⟨by simpa using Nat.one_le_iff_ne_zero.mpr h0, by simpa using hlt⟩
      · rename_i hge
        push_neg at hge
        have hdiv_lt : n / 10 < n := Nat.div_lt_self (by omega) (by norm_num)
        have hdiv_ne : n / 10 ≠ 0 := by
          have h1 : 1 ≤ n / 10 := (Nat.one_le_div_iff (by norm_num)).mpr (by omega)
          omega
        obtain ⟨ih1, ih2⟩ := ih (n / 10) (by omega) hdiv_ne
        have hpos := digits10Aux_pos fuel (n / 10)
        constructor
        · have e1 : digits10Aux fuel (n / 10) + 1 - 1 = digits10Aux fuel (n / 10) := by omega
          rw [e1]
          have e2 : 10 ^ digits10Aux fuel (n / 10)
              = 10 ^ (digits10Aux fuel (n / 10) - 1) * 10 := by
            rw [← pow_succ]
            congr 1
            omega
          rw [e2]
          calc 10 ^ (digits10Aux fuel (n / 10) - 1) * 10 ≤ (n / 10) * 10 :=
                Nat.mul_le_mul_right 10 ih1
            _ ≤ n := Nat.div_mul_le_self n 10
        · have h1 : n < (n / 10 + 1) * 10 := by
            have h2 := Nat.div_add_mod n 10
            have h3 : n % 10 < 10 := Nat.mod_lt _ (by norm_num)
            omega
          calc n < (n / 10 + 1) * 10 := h1
            _ ≤ 10 ^ digits10Aux fuel (n / 10) * 10 := Nat.mul_le_mul_right 10 (by omega)
            _ = 10 ^ (digits10Aux fuel (n / 10) + 1) := (pow_succ 10 _).symm

theorem digits10_bounds (n : ℕ) (h0 : n ≠ 0) :
    10 ^ (digits10 n - 1) ≤ n ∧ n < 10 ^ digits10 n :=
  digits10Aux_bounds n n le_rfl h0

theorem abs_eq_natAbs_div_den (x : ℚ) :
    |x| = (x.num.natAbs : ℚ) / (x.den : ℚ) := by
  have hden : (0:ℚ) < (x.den : ℚ) := by exact_mod_cast x.den_pos
  conv_lhs => rw [← Rat.num_div_den x]
  rw [abs_div, Int.cast_natAbs]
  congr 1
  · exact Int.cast_abs.symm
  · exact abs_of_pos hden

theorem zpow_decExp_le (x : ℚ) (hx : x ≠ 0) : (10:ℚ) ^ decExp x ≤ |x| := by
  unfold decExp
  split
  · rename_i h
    exact h
  · rename_i h
    have hnum : x.num.natAbs ≠ 0 := by
      simpa [Int.natAbs_eq_zero] using Rat.num_ne_zero.mpr hx
    have hden : x.den ≠ 0 := x.den_nz
    obtain ⟨ha1, _⟩ := digits10_bounds x.num.natAbs hnum
    obtain ⟨_, hb2⟩ := digits10_bounds x.den hden
    have hDa1 : 1 ≤ digits10 x.num.natAbs := digits10Aux_pos _ _
    rw [abs_eq_natAbs_div_den]
    have key : (10:ℚ) ^ ((digits10 x.num.natAbs : ℤ) - (digits10 x.den : ℤ) - 1) =
        (10:ℚ) ^ (digits10 x.num.natAbs - 1) / (10:ℚ) ^ (digits10 x.den) := by
      rw [← zpow_natCast (10:ℚ) (digits10 x.num.natAbs - 1),
          ← zpow_natCast (10:ℚ) (digits10 x.den),
          ← zpow_sub₀ (by norm_num : (10:ℚ) ≠ 0)]
      congr 1
      omega
    rw [key, div_le_div_iff₀ (by positivity) (by exact_mod_cast x.den_pos)]
    exact_mod_cast Nat.mul_le_mul ha1 (le_of_lt hb2)

theorem decExp_lt (x : ℚ) (hx : x ≠ 0) (m : ℕ) (hm : |x| < 10 ^ m) :
    decExp x < (m : ℤ) := by
  have h1 := zpow_decExp_le x hx
  have h2 : (10:ℚ) ^ decExp x < 10 ^ ((m:ℤ)) := by
    rw [zpow_natCast]
    exact lt_of_le_of_lt h1 hm
  exact (zpow_lt_zpow_iff_right₀ (by norm_num : (1:ℚ) < 10)).mp h2

theorem roundPrec_sub_abs_le (x : ℚ) : |roundPrec 28 x - x| ≤ |x| / 10 ^ (27:ℕ) := by
  unfold roundPrec
  split
  · rename_i h
    simp [h]
  · rename_i h
    have hq := quantAt_sub_abs_le (decExp x + 1 - (28:ℕ)) x
    have hle := zpow_decExp_le x h
    have e1 : (10:ℚ) ^ (decExp x + 1 - (28:ℕ)) = 10 ^ decExp x / 10 ^ (27:ℕ) := by
      rw [← zpow_natCast (10:ℚ) 27, ← zpow_sub₀ (by norm_num : (10:ℚ) ≠ 0)]
      congr 1
      omega
    have h3 : (10:ℚ) ^ decExp x / 10 ^ (27:ℕ) ≤ |x| / 10 ^ (27:ℕ) := by gcongr
    have h5 : (0:ℚ) < 10 ^ decExp x / 10 ^ (27:ℕ) := by positivity
    rw [e1] at hq
    linarith

theorem roundPrec_eq_self (x : ℚ) (k m : ℕ) (hk : ∃ n : ℤ, x * 10 ^ (k:ℤ) = (n:ℚ))
    (hm : |x| < 10 ^ m) (hkm : k + m ≤ 28) : roundPrec 28 x = x := by
  unfold roundPrec
  split
  · rename_i h
    exact h.symm
  · rename_i h
    apply quantAt_eq_self
    obtain ⟨n, hn⟩ := hk
    have hlt := decExp_lt x h m hm
    have hnn : (0:ℤ) ≤ 27 - decExp x - k := by omega
    refine ⟨n * 10 ^ (27 - decExp x - (k:ℤ)).toNat, ?_⟩
    have eexp : -(decExp x + 1 - ((28:ℕ):ℤ)) = (k:ℤ) + (27 - decExp x - (k:ℤ)) := by
      omega
    have hz : x * 10 ^ (-(decExp x + 1 - ((28:ℕ):ℤ))) =
        (x * 10 ^ (k:ℤ)) * 10 ^ (27 - decExp x - (k:ℤ)) := by
      rw [eexp, zpow_add₀ (by norm_num : (10:ℚ) ≠ 0), ← mul_assoc]
    have eexp2 : (27 - decExp x - (k:ℤ)) = ((27 - decExp x - (k:ℤ)).toNat : ℤ) := by
      omega
    rw [hz, hn, eexp2, zpow_natCast]
    push_cast
    simp

theorem mulD_eq_mul (x y : ℚ) (kx mx ky my : ℕ)
    (hxk : ∃ n : ℤ, x * 10 ^ (kx:ℤ) = (n:ℚ)) (hxm : |x| < 10 ^ mx)
    (hyk : ∃ n : ℤ, y * 10 ^ (ky:ℤ) = (n:ℚ)) (hym : |y| < 10 ^ my)
    (hall : kx + ky + (mx + my) ≤ 28) : mulD x y = x * y := by
  apply roundPrec_eq_self (x * y) (kx + ky) (mx + my) ?_ ?_ (by omega)
  · obtain ⟨nx, hnx⟩ := hxk
    obtain ⟨ny, hny⟩ := hyk
    refine ⟨nx * ny, ?_⟩
    push_cast
    rw [zpow_add₀ (by norm_num : (10:ℚ) ≠ 0), ← hnx, ← hny]
    ring
  · calc |x * y| = |x| * |y| := abs_mul x y
      _ < 10 ^ mx * 10 ^ my := by
        nlinarith [abs_nonneg x, abs_nonneg y, hxm, hym]
      _ = 10 ^ (mx + my) := (pow_add 10 mx my).symm

/-! ### Error analysis of one distributed share -/

theorem share_close (t S c : ℚ) (ht : 0 < t) (ht8 : t ≤ 10 ^ (8:ℕ))
    (hc : 0 ≤ c) (hcS : c ≤ S) (hS : 0 < S) :
    |quant2 (mulD t (divD c S)) - t * (c / S)| ≤ 1/100 := by
  have hq0 : 0 ≤ c / S := div_nonneg hc (le_of_lt hS)
  have hq1 : c / S ≤ 1 := (div_le_one hS).mpr hcS
  have h1 : |divD c S - c / S| ≤ 1 / 10 ^ (27:ℕ) := by
    have hr := roundPrec_sub_abs_le (c / S)
    rw [abs_of_nonneg hq0] at hr
    have h1a : c / S / 10 ^ (27:ℕ) ≤ 1 / 10 ^ (27:ℕ) := by gcongr
    have hdd : divD c S = roundPrec 28 (c / S) := rfl
    rw [hdd]
    linarith
  have hsmall : (1:ℚ) / 10 ^ (27:ℕ) ≤ 1 := by norm_num
  have hdabs : |divD c S| ≤ 2 := by
    rw [abs_le]
    rw [abs_le] at h1
    constructor <;> linarith
  have h2 : |mulD t (divD c S) - t * divD c S| ≤ |t * divD c S| / 10 ^ (27:ℕ) :=
    roundPrec_sub_abs_le (t * divD c S)
  have htd : |t * divD c S| ≤ 2 * t := by
    rw [abs_mul, abs_of_pos ht]
    nlinarith
  have h3 : |mulD t (divD c S) - t * (c / S)| ≤ 3 * t / 10 ^ (27:ℕ) := by
    have e : mulD t (divD c S) - t * (c / S)
        = (mulD t (divD c S) - t * divD c S) + t * (divD c S - c / S) := by ring
    have habs : |t * (divD c S - c / S)| ≤ t * (1 / 10 ^ (27:ℕ)) := by
      rw [abs_mul, abs_of_pos ht]
      exact mul_le_mul_of_nonneg_left h1 (le_of_lt ht)
    have hdiv : |t * divD c S| / 10 ^ (27:ℕ) ≤ 2 * t / 10 ^ (27:ℕ) := by gcongr
    calc |mulD t (divD c S) - t * (c / S)|
        = |(mulD t (divD c S) - t * divD c S) + t * (divD c S - c / S)| := by rw [e]
      _ ≤ |mulD t (divD c S) - t * divD c S| + |t * (divD c S - c / S)| := abs_add _ _
      _ ≤ 2 * t / 10 ^ (27:ℕ) + t * (1 / 10 ^ (27:ℕ)) := add_le_add (le_trans h2 hdiv) habs
      _ = 3 * t / 10 ^ (27:ℕ) := by ring
  have h4 : |quant2 (mulD t (divD c S)) - mulD t (divD c S)| ≤ 1/200 := by
    have hq := quantAt_sub_abs_le (-2) (mulD t (divD c S))
    have e : ((10:ℚ) ^ (-2:ℤ)) / 2 = 1/200 := by norm_num
    rw [e] at hq
    exact hq
  have h5 : 3 * t / 10 ^ (27:ℕ) ≤ 3 * 10 ^ (8:ℕ) / 10 ^ (27:ℕ) := by gcongr
  have h6 : (3:ℚ) * 10 ^ (8:ℕ) / 10 ^ (27:ℕ) ≤ 1/200 := by norm_num
  calc |quant2 (mulD t (divD c S)) - t * (c / S)|
      ≤ |quant2 (mulD t (divD c S)) - mulD t (divD c S)|
        + |mulD t (divD c S) - t * (c / S)| := abs_sub_le _ _ _
    _ ≤ 1/200 + 3 * t / 10 ^ (27:ℕ) := add_le_add h4 h3
    _ ≤ 1/100 := by linarith

/-! ### List-level helpers -/

theorem list_sum_sub_abs_le {α : Type} (l : List α) (f g : α → ℚ) (B : ℚ)
    (h : ∀ a ∈ l, |f a - g a| ≤ B) :
    |(l.map f).sum - (l.map g).sum| ≤ l.length * B := by
  induction l with
  | nil => simp
  | cons a l ih =>
      simp only [List.map_cons, List.sum_cons, List.length_cons]
      have h1 := h a (List.mem_cons_self a l)
      have h2 := ih fun b hb => h b (List.mem_cons_of_mem a hb)
      have e : f a + (l.map f).sum - (g a + (l.map g).sum)
          = (f a - g a) + ((l.map f).sum - (l.map g).sum) := by ring
      calc |f a + (l.map f).sum - (g a + (l.map g).sum)|
          = |(f a - g a) + ((l.map f).sum - (l.map g).sum)| := by rw [e]
        _ ≤ |f a - g a| + |(l.map f).sum - (l.map g).sum| := abs_add _ _
        _ ≤ B + l.length * B := add_le_add h1 h2
        _ = ((l.length + 1 : ℕ) : ℚ) * B := by push_cast; ring

theorem list_sum_map_mul_div (l : List ℚ) (t S : ℚ) :
    (l.map fun c => t * (c / S)).sum = t * (l.sum / S) := by
  induction l with
  | nil => simp
  | cons a l ih =>
      simp only [List.map_cons, List.sum_cons, ih]
      rw [add_div, mul_add]

/-! ### Field-access helpers for `setCampo` and the save steps -/

theorem getCampo_setCampo (a : Articulo) (c : Campo) (v : ℚ) :
    getCampo (setCampo a c v) c = quant2 v := by
  cases c <;> rfl

theorem coste_euro_setCampo (a : Articulo) (c : Campo) (v : ℚ) :
    (setCampo a c v).coste_euro = a.coste_euro := by
  cases c <;> rfl

theorem setCampo_setCampo (a : Articulo) (c : Campo) (v w : ℚ) :
    setCampo (setCampo a c v) c w = setCampo a c w := by
  cases c <;> rfl

theorem saveIva_coste_euro (ped : Pedido) (a : Articulo) :
    (saveIva ped a).coste_euro = a.coste_euro := by
  unfold saveIva
  split <;> rfl

theorem saveIva_coste_yen (ped : Pedido) (a : Articulo) :
    (saveIva ped a).coste_yen = a.coste_yen := by
  unfold saveIva
  split <;> rfl

theorem saveYen_iva (ped : Pedido) (a : Articulo) :
    (saveYen ped a).iva = a.iva := by
  unfold saveYen
  split <;> rfl

/-! ### Claim-level theorems -/

/-- C2: if the total to distribute is zero or negative, or the order has no
items, or the sum of the base costs is not positive, `_distribuir_coste`
(hence `distribuir_gastos_aduana` and `distribuir_coste_envio`) leaves every
item unchanged and returns `false` (the Python no-division, no-error
fall-through to `return False`). -/
theorem distribuir_noop (arts : List Articulo) (t : ℚ) (campo : Campo)
    (h : t ≤ 0 ∨ arts = [] ∨ (arts.map Articulo.coste_euro).sum ≤ 0) :
    Pedido._distribuir_coste arts t campo = (arts, false) := by
  by_cases h1 : t > 0 ∧ arts ≠ []
  · rcases h with h | h | h
    · exact absurd h1.1 (not_lt.mpr h)
    · exact absurd h h1.2
    · simp only [Pedido._distribuir_coste]
      rw [if_pos h1, if_neg (not_lt.mpr h)]
  · simp only [Pedido._distribuir_coste]
    rw [if_neg h1]

/-- C2 witness: a one-item order with a zero total is left unchanged and the
operation reports `false`. -/
theorem distribuir_noop_witness :
    Pedido._distribuir_coste [({ coste_euro := 5 } : Articulo)] 0 Campo.aduana_imputada
      = ([{ coste_euro := 5 }], false) :=
  distribuir_noop _ 0 Campo.aduana_imputada (Or.inl le_rfl)

/-- C7: running the same distribution twice with unchanged base costs and
unchanged total produces the same target-field values as running it once:
the allocation is a pure function of the current base costs and the total,
and each call fully overwrites the previous allocation. -/
theorem distribuir_idempotent (arts : List Articulo) (t : ℚ) (campo : Campo) :
    (Pedido._distribuir_coste (Pedido._distribuir_coste arts t campo).1 t campo).1
      = (Pedido._distribuir_coste arts t campo).1 := by
  by_cases h1 : t > 0 ∧ arts ≠ []
  · by_cases h2 : 0 < (arts.map Articulo.coste_euro).sum
    · have hred1 : (Pedido._distribuir_coste arts t campo).1
          = arts.map fun a =>
              setCampo a campo (mulD t (divD a.coste_euro (arts.map Articulo.coste_euro).sum)) := by
        simp only [Pedido._distribuir_coste]
        rw [if_pos h1, if_pos h2]
      have hcoste : ((arts.map fun a =>
            setCampo a campo (mulD t (divD a.coste_euro (arts.map Articulo.coste_euro).sum))).map
              Articulo.coste_euro) = arts.map Articulo.coste_euro := by
        rw [List.map_map]
        exact List.map_congr_left fun a _ => coste_euro_setCampo a campo _
      have hne2 : (arts.map fun a =>
            setCampo a campo (mulD t (divD a.coste_euro (arts.map Articulo.coste_euro).sum))) ≠ [] := by
        intro hx
        exact h1.2 (List.map_eq_nil_iff.mp hx)
      have hred2 : (Pedido._distribuir_coste (arts.map fun a =>
              setCampo a campo (mulD t (divD a.coste_euro (arts.map Articulo.coste_euro).sum)))
            t campo).1
          = (arts.map fun a =>
              setCampo a campo (mulD t (divD a.coste_euro (arts.map Articulo.coste_euro).sum))).map
              fun a =>
                setCampo a campo (mulD t (divD a.coste_euro (arts.map Articulo.coste_euro).sum)) := by
        simp only [Pedido._distribuir_coste]
        rw [if_pos ⟨h1.1, hne2⟩, hcoste, if_pos h2]
      rw [hred1, hred2, List.map_map]
      apply List.map_congr_left
      intro a _
      simp only [Function.comp_apply]
      rw [coste_euro_setCampo, setCampo_setCampo]
    · have hred1 : Pedido._distribuir_coste arts t campo = (arts, false) := by
        simp only [Pedido._distribuir_coste]
        rw [if_pos h1, if_neg h2]
      rw [hred1]
      show (Pedido._distribuir_coste arts t campo).1 = arts
      rw [hred1]
  · have hred1 : Pedido._distribuir_coste arts t campo = (arts, false) := by
      simp only [Pedido._distribuir_coste]
      rw [if_neg h1]
    rw [hred1]
    show (Pedido._distribuir_coste arts t campo).1 = arts
    rw [hred1]

/-- C1 (amended): for every order with a positive total `t ≤ 10^8` (the
bound a `DecimalField(max_digits=10, decimal_places=2)` column enforces),
nonnegative base costs and a positive base-cost sum, the sum of the written
target-field shares equals the total to within one cent PER ITEM.  The
original one-cent bound fails (see the counterexample): each share is
quantised to two fractional digits on write and no rounding-residue
correction is applied, so up to half a cent per item can be lost or
gained. -/
theorem distribuir_sum_within_cent_per_item (arts : List Articulo) (t : ℚ) (campo : Campo)
    (ht : 0 < t) (ht8 : t ≤ 10 ^ (8:ℕ))
    (hpos : ∀ a ∈ arts, 0 ≤ a.coste_euro)
    (hS : 0 < (arts.map Articulo.coste_euro).sum) :
    |(((Pedido._distribuir_coste arts t campo).1.map fun a => getCampo a campo).sum - t)|
      ≤ arts.length * (1/100) := by
  have hne : arts ≠ [] := by
    intro hnil
    rw [hnil] at hS
    simp at hS
  have hred : (Pedido._distribuir_coste arts t campo).1
      = arts.map fun a =>
          setCampo a campo (mulD t (divD a.coste_euro (arts.map Articulo.coste_euro).sum)) := by
    simp only [Pedido._distribuir_coste]
    rw [if_pos ⟨ht, hne⟩, if_pos hS]
  rw [hred, List.map_map]
  have e1 : ((fun a => getCampo a campo) ∘ fun a =>
        setCampo a campo (mulD t (divD a.coste_euro (arts.map Articulo.coste_euro).sum)))
      = fun a => quant2 (mulD t (divD a.coste_euro (arts.map Articulo.coste_euro).sum)) := by
    funext a
    exact getCampo_setCampo a campo _
  rw [e1]
  have hnonneg : ∀ c ∈ arts.map Articulo.coste_euro, 0 ≤ c := by
    intro c hc
    obtain ⟨b, hb, rfl⟩ := List.mem_map.mp hc
    exact hpos b hb
  have hbound : ∀ a ∈ arts,
      |quant2 (mulD t (divD a.coste_euro (arts.map Articulo.coste_euro).sum))
        - t * (a.coste_euro / (arts.map Articulo.coste_euro).sum)| ≤ 1/100 := by
    intro a ha
    refine share_close t _ a.coste_euro ht ht8 (hpos a ha) ?_ hS
    exact List.single_le_sum hnonneg _ (List.mem_map_of_mem Articulo.coste_euro ha)
  have hmain := list_sum_sub_abs_le arts
    (fun a => quant2 (mulD t (divD a.coste_euro (arts.map Articulo.coste_euro).sum)))
    (fun a => t * (a.coste_euro / (arts.map Articulo.coste_euro).sum)) (1/100) hbound
  have hg : (arts.map fun a => t * (a.coste_euro / (arts.map Articulo.coste_euro).sum)).sum
      = t := by
    have e2 : (arts.map fun a => t * (a.coste_euro / (arts.map Articulo.coste_euro).sum))
        = ((arts.map Articulo.coste_euro).map
            fun c => t * (c / (arts.map Articulo.coste_euro).sum)) := by
      rw [List.map_map]
      rfl
    rw [e2, list_sum_map_mul_div, div_self (ne_of_gt hS), mul_one]
  rw [hg] at hmain
  exact hmain

/-- C5 (amended): whenever the individual-shipping field is non-null,
reading `coste_adquisicion_total` succeeds and equals base cost plus VAT
(null VAT read as zero) plus individual shipping plus allocated customs
plus national shipping.  The original claim fails for a null
individual-shipping field: only the VAT is coalesced by the source, so the
read raises a TypeError there (see the counterexample). -/
theorem coste_adquisicion_eq_of_envio_some (a : Articulo) (e : ℚ)
    (h : a.coste_envio_individual = some e) :
    Articulo.coste_adquisicion_total a
      = some (a.coste_euro + a.iva.getD 0 + e + a.aduana_imputada + a.coste_envio_nacional) := by
  unfold Articulo.coste_adquisicion_total
  rw [h]

/-- C5 witness: with null VAT but non-null shipping the read succeeds and
the null VAT counts as zero. -/
theorem coste_adquisicion_eq_of_envio_some_witness :
    Articulo.coste_adquisicion_total
        ({ coste_euro := 10, coste_envio_individual := some 2, iva := none,
           aduana_imputada := 3, coste_envio_nacional := 4 } : Articulo)
      = some (10 + (0:ℚ) + 2 + 3 + 4) :=
  coste_adquisicion_eq_of_envio_some _ 2 rfl

/-- C5 counterexample: an item whose individual-shipping field is null: the
read does not succeed (the property raises a TypeError, modelled `none`),
refuting the claim that every null field is treated as zero. -/
theorem coste_adquisicion_none_counterexample :
    Articulo.coste_adquisicion_total
      ({ coste_euro := 10, coste_envio_individual := none } : Articulo) = none := rfl

/-- C6: for every item with a non-null sale price (and a computable
acquisition cost), `beneficio` equals sale price minus total acquisition
cost minus national shipping: national shipping is subtracted twice, once
inside the acquisition cost and once again explicitly, exactly as the
source does. -/
theorem beneficio_formula (a : Articulo) (p ct : ℚ)
    (hp : a.precio_venta = some p)
    (hct : Articulo.coste_adquisicion_total a = some ct) :
    Articulo.beneficio a = some (some (p - ct - a.coste_envio_nacional)) := by
  unfold Articulo.beneficio
  rw [hp, hct]

/-- C10: on any item with non-null sale price, VAT and individual shipping,
the admin annotation profit and the model property profit both compute, and
the annotation exceeds the property by exactly the national shipping cost;
they disagree whenever that cost is nonzero. -/
theorem admin_beneficio_differs (a : Articulo) (p v e : ℚ)
    (hp : a.precio_venta = some p) (hv : a.iva = some v)
    (he : a.coste_envio_individual = some e) :
    ∃ x y : ℚ, adminBeneficio a = some x ∧ Articulo.beneficio a = some (some y) ∧
      x - y = a.coste_envio_nacional ∧ (a.coste_envio_nacional ≠ 0 → x ≠ y) := by
  have hx : adminBeneficio a = some (p - adminCosteTotal a) := by
    unfold adminBeneficio
    rw [hp]
  have hct : Articulo.coste_adquisicion_total a = some (adminCosteTotal a) := by
    unfold Articulo.coste_adquisicion_total adminCosteTotal
    rw [he, hv]
    rfl
  have hy : Articulo.beneficio a
      = some (some (p - adminCosteTotal a - a.coste_envio_nacional)) := by
    unfold Articulo.beneficio
    rw [hp, hct]
  refine ⟨p - adminCosteTotal a, p - adminCosteTotal a - a.coste_envio_nacional,
    hx, hy, by ring, ?_⟩
  intro hnz heq
  apply hnz
  linarith [heq]

/-- C10 witness: a concrete item with national shipping 4: the two profit
figures differ by exactly 4. -/
theorem admin_beneficio_differs_witness :
    ∃ x y : ℚ,
      adminBeneficio artEjemplo = some x ∧
      Articulo.beneficio artEjemplo = some (some y) ∧
      x - y = (4:ℚ) ∧ ((4:ℚ) ≠ 0 → x ≠ y) :=
  admin_beneficio_differs artEjemplo 100 5 2 rfl rfl rfl

/-- C3: for every saved item whose order VAT rate and base cost are nonzero
and whose decimal fields are in the declared column ranges, the stored VAT
is base cost times VAT rate quantised to two fractional digits; and a zero
base cost leaves the VAT field at its prior value. -/
theorem save_iva_spec (ped : Pedido) (a : Articulo)
    (hak : ∃ n : ℤ, a.coste_euro * 10 ^ ((2:ℕ):ℤ) = (n:ℚ)) (ham : |a.coste_euro| < 10 ^ (8:ℕ))
    (hpk : ∃ n : ℤ, ped.tasa_iva * 10 ^ ((2:ℕ):ℤ) = (n:ℚ)) (hpm : |ped.tasa_iva| < 10 ^ (3:ℕ)) :
    (ped.tasa_iva ≠ 0 → a.coste_euro ≠ 0 →
      (Articulo.save ped a).iva = some (quant2 (a.coste_euro * ped.tasa_iva))) ∧
    (a.coste_euro = 0 → (Articulo.save ped a).iva = a.iva) := by
  constructor
  · intro ht hc
    have hmul := mulD_eq_mul a.coste_euro ped.tasa_iva 2 8 2 3 hak ham hpk hpm (by norm_num)
    show (saveYen ped (saveIva ped a)).iva = _
    rw [saveYen_iva]
    unfold saveIva
    rw [if_pos ⟨ht, hc⟩]
    show some (quant2 (mulD a.coste_euro ped.tasa_iva)) = _
    rw [hmul]
  · intro hc
    show (saveYen ped (saveIva ped a)).iva = a.iva
    rw [saveYen_iva]
    unfold saveIva
    rw [if_neg fun hcontra => hcontra.2 hc]

/-- C4: for every saved item whose order exchange rate and base cost are
nonzero and whose decimal fields are in the declared column ranges, the
stored yen cost is the base cost times the exchange rate rounded to the
nearest integer with the single consistent tie rule ROUND_HALF_EVEN
(the rule of the built-in `round` on a `Decimal`); and a zero base cost
leaves the yen field at its prior value. -/
theorem save_yen_spec (ped : Pedido) (a : Articulo)
    (hak : ∃ n : ℤ, a.coste_euro * 10 ^ ((2:ℕ):ℤ) = (n:ℚ)) (ham : |a.coste_euro| < 10 ^ (8:ℕ))
    (hpk : ∃ n : ℤ, ped.tasa_cambio_eur_jpy * 10 ^ ((4:ℕ):ℤ) = (n:ℚ))
    (hpm : |ped.tasa_cambio_eur_jpy| < 10 ^ (6:ℕ)) :
    (ped.tasa_cambio_eur_jpy ≠ 0 → a.coste_euro ≠ 0 →
      (Articulo.save ped a).coste_yen
        = some (rhe (a.coste_euro * ped.tasa_cambio_eur_jpy))) ∧
    (a.coste_euro = 0 → (Articulo.save ped a).coste_yen = a.coste_yen) := by
  constructor
  · intro ht hc
    have hmul := mulD_eq_mul a.coste_euro ped.tasa_cambio_eur_jpy 2 8 4 6 hak ham hpk hpm
      (by norm_num)
    show (saveYen ped (saveIva ped a)).coste_yen = _
    unfold saveYen
    rw [saveIva_coste_euro]
    rw [if_pos ⟨ht, hc⟩]
    show some (rhe (mulD a.coste_euro ped.tasa_cambio_eur_jpy)) = _
    rw [hmul]
  · intro hc
    show (saveYen ped (saveIva ped a)).coste_yen = a.coste_yen
    unfold saveYen
    rw [saveIva_coste_euro]
    rw [if_neg fun hcontra => hcontra.2 hc, saveIva_coste_yen]

section
attribute [local semireducible] Rat.add Rat.mul Rat.sub Rat.inv

/-- C9: the end-to-end scenario: an order with customs expense 30.00 and two
items of base cost 10.00 and 20.00 allocates 10.00 and 20.00; with customs
expense 15.00 it allocates 5.00 and 10.00. -/
theorem escenario_aduana_dos_articulos :
    (((Pedido.distribuir_gastos_aduana
          { gastos_aduana := 30, tasa_cambio_eur_jpy := 165, tasa_iva := 21/100 }
          [({ coste_euro := 10 } : Articulo), { coste_euro := 20 }]).1.map
        fun a => a.aduana_imputada) = [10, 20])
    ∧ (((Pedido.distribuir_gastos_aduana
          { gastos_aduana := 15, tasa_cambio_eur_jpy := 165, tasa_iva := 21/100 }
          [({ coste_euro := 10 } : Articulo), { coste_euro := 20 }]).1.map
        fun a => a.aduana_imputada) = [5, 10]) := by decide

set_option maxRecDepth 4000 in
/-- C1 counterexample: five items of base cost 1.00 and a total of 0.02 to
distribute satisfy the claims preconditions, yet every written share is
0.00 (each exact share 0.004 quantises to zero), so the written sum misses
the total by two cents, more than one cent. -/
theorem distribuir_within_one_cent_fails :
    0 < (1/50 : ℚ) ∧
    0 < ((List.replicate 5 ({ coste_euro := 1 } : Articulo)).map Articulo.coste_euro).sum ∧
    ¬ (|((Pedido._distribuir_coste (List.replicate 5 ({ coste_euro := 1 } : Articulo)) (1/50)
            Campo.aduana_imputada).1.map
          fun a => getCampo a Campo.aduana_imputada).sum - 1/50| ≤ 1/100) := by decide

/-- C1 witness (for the amended bound): the two-item order with total 30
stays within two cents of the total. -/
theorem distribuir_sum_within_cent_per_item_witness :
    |(((Pedido._distribuir_coste [({ coste_euro := 10 } : Articulo), { coste_euro := 20 }] 30
          Campo.aduana_imputada).1.map fun a => getCampo a Campo.aduana_imputada).sum - 30)|
      ≤ ([({ coste_euro := 10 } : Articulo), { coste_euro := 20 }]).length * (1/100) :=
  distribuir_sum_within_cent_per_item _ 30 Campo.aduana_imputada (by decide) (by decide)
    (by decide) (by decide)

/-- C6 witness: a concrete item: sale price 100, acquisition cost 24
(10 + 5 + 2 + 3 + 4), national shipping 4; the profit is 100 - 24 - 4. -/
theorem beneficio_formula_witness :
    Articulo.beneficio artEjemplo = some (some (100 - 24 - 4)) :=
  beneficio_formula artEjemplo 100 24 rfl (by decide)

/-- C3 witness: base cost 10.01, VAT rate 0.21: the stored VAT is 2.10
(10.01 x 0.21 = 2.1021, quantised to two fractional digits). -/
theorem save_iva_spec_witness :
    (Articulo.save { tasa_cambio_eur_jpy := 165, tasa_iva := 21/100 }
        ({ coste_euro := 1001/100 } : Articulo)).iva = some (21/10) := by
  have h := (save_iva_spec { tasa_cambio_eur_jpy := 165, tasa_iva := 21/100 }
      { coste_euro := 1001/100 } ⟨1001, by decide⟩ (by decide) ⟨21, by decide⟩
      (by decide)).1 (by decide) (by decide)
  rw [h]
  decide

/-- C4 witness: the halfway case: base cost 0.67, exchange rate 150.0000
gives exactly 100.5 yen, stored as 100 (ties to even, the rule of the
built-in `round`able on Decimal, not half-up which would store 101). -/
theorem save_yen_spec_witness :
    (Articulo.save { tasa_cambio_eur_jpy := 150, tasa_iva := 21/100 }
        ({ coste_euro := 67/100 } : Articulo)).coste_yen = some 100 := by
  have h := (save_yen_spec { tasa_cambio_eur_jpy := 150, tasa_iva := 21/100 }
      { coste_euro := 67/100 } ⟨67, by decide⟩ (by decide) ⟨1500000, by decide⟩
      (by decide)).1 (by decide) (by decide)
  rw [h]
  decide

end

end ERP
